import Mathlib

/-!
Verification of the StudyMate weekly study-session scheduler
(`utils/timetableGenerator.js`): a shallow embedding of the timetable
generator, the single-day regenerator and their helpers, together with
theorems settling the specification's claims about them.

Modelling conventions:
* JS numbers that hold whole minutes/hours/counts become `Nat`;
  the priority score (which mixes factors 1.5, 0.2 and a division by 10)
  becomes `Rat`.
* `Math.random`-driven Fisher–Yates shuffles become an explicit
  `shuffle` function parameter; claims that need it assume the parameter
  permutes its input, which is the one guarantee a shuffle provides.
* JS objects become structures; a field that a given code path never
  sets (the `difficulty` property of placed sessions) is an `Option`
  that the path fills with `none`, mirroring `undefined`.
* `Array.prototype.sort` (stable per ES2019) is modelled by a stable
  insertion sort on the comparator's key, descending.
-/

namespace StudyMate

/-- Day names, from `const DAYS = ['Monday', …, 'Sunday']`. -/
def DAYS : List String :=
  ["Monday", "Tuesday", "Wednesday", "Thursday", "Friday", "Saturday", "Sunday"]

/-- `DIFFICULTY_WEIGHTS` lookup with the `|| 1` fallback used at every
call site (`DIFFICULTY_WEIGHTS[d] || 1`): easy 1, medium 1.5, hard 2,
anything else 1. -/
def difficultyWeight (d : String) : ℚ :=
  if d = "easy" then 1 else if d = "medium" then 3/2 else if d = "hard" then 2 else 1

/-- Subject record as the generator consumes it (`name`, `_id`, `color`,
`difficulty`, `examPriority`, `weeklyHours`). `examPriority` is optional
because the code guards it with `|| 0`. -/
structure Subject where
  name : String
  id : ℕ
  color : String
  difficulty : String
  examPriority : Option ℕ
  weeklyHours : ℕ
deriving DecidableEq

/-- User preferences destructured at the top of both generators. -/
structure Preferences where
  dailyHours : ℕ
  sessionDuration : ℕ
  breakDuration : ℕ
deriving DecidableEq

/-- The `type` field of a session: `'study'` or `'break'`. -/
inductive SType where
  | study : SType
  | brk : SType
deriving DecidableEq

/-- A placed session object.  `difficulty` is `Option` because the
objects pushed by the weekly allocator do not carry that property
(reading it back yields `undefined`). -/
structure Session where
  subject : String
  subjectId : Option ℕ
  startTime : String
  endTime : String
  duration : ℕ
  type : SType
  completed : Bool
  color : String
  difficulty : Option String
deriving DecidableEq

/-- One day of the generated timetable. -/
structure Day where
  dayOfWeek : ℕ
  dayName : String
  sessions : List Session
  totalStudyMinutes : ℕ
  totalBreakMinutes : ℕ
deriving DecidableEq

def defaultSubject : Subject :=
  { name := "", id := 0, color := "", difficulty := "", examPriority := none, weeklyHours := 0 }

def defaultDay : Day :=
  { dayOfWeek := 0, dayName := "", sessions := [], totalStudyMinutes := 0, totalBreakMinutes := 0 }

/-- An internal session token of the allocation pool. -/
structure SessionToken where
  subject : String
  subjectId : Option ℕ
  color : String
  difficulty : String
  priority : ℚ

/-- `formatTime(hours, minutes)`: 24-hour time to `h:mm AM/PM`. -/
def formatTime (hours minutes : ℕ) : String :=
  let period := if hours ≥ 12 then "PM" else "AM"
  let displayHours := if hours % 12 = 0 then 12 else hours % 12
  let displayMinutes := (if minutes < 10 then "0" else "") ++ toString minutes
  toString displayHours ++ ":" ++ displayMinutes ++ " " ++ period

/-- `addMinutes(hours, minutes, addMins)`: returns the new
`(hours, minutes)` pair, hours wrapping modulo 24. -/
def addMinutes (hours minutes addMins : ℕ) : ℕ × ℕ :=
  let totalMinutes := hours * 60 + minutes + addMins
  (totalMinutes / 60 % 24, totalMinutes % 60)

/-- `calculatePriority(subject)`: difficulty weight × exam weight ×
hours weight, with `examPriority || 0` and
`Math.min(weeklyHours / 10, 2)`. -/
def calculatePriority (s : Subject) : ℚ :=
  difficultyWeight s.difficulty * (1 + (s.examPriority.getD 0 : ℚ) * (1/5))
    * min ((s.weeklyHours : ℚ) / 10) 2

/-- `Math.ceil(weeklyHours * 60 / sessionDuration)`, the per-subject
session demand computed inside `generateTimetable`. -/
def sessionsNeeded (weeklyHours sessionDuration : ℕ) : ℕ :=
  Nat.ceil ((weeklyHours * 60 : ℚ) / sessionDuration)

/-- Stable descending insertion for `sortDescBy`: `x` goes in front of
the first element whose key is not larger, so equal keys keep their
original relative order. -/
def insertDescBy (f : α → ℚ) (x : α) : List α → List α
  | [] => [x]
  | y :: ys => if f x ≥ f y then x :: y :: ys else y :: insertDescBy f x ys

/-- Stable sort, key descending: models `arr.sort((a, b) => f(b) - f(a))`
(stable per ES2019). -/
def sortDescBy (f : α → ℚ) : List α → List α
  | [] => []
  | x :: xs => insertDescBy f x (sortDescBy f xs)

/-- `true` exactly on study sessions (`s.type === 'study'`). -/
def isStudy (s : Session) : Bool := s.type == SType.study

/-- `true` exactly on break sessions (`s.type === 'break'`). -/
def isBreak (s : Session) : Bool := s.type == SType.brk

/-- `day.sessions.filter(s => s.type === 'study').length`. -/
def studyCount (d : Day) : ℕ := (d.sessions.filter isStudy).length

/-- Split a character list on a separator character; the char-level
splitting used to read an `h:mm AM/PM` string back apart. -/
def splitOnChar (sep : Char) : List Char → List (List Char)
  | [] => [[]]
  | c :: rest =>
    if c = sep then [] :: splitOnChar sep rest
    else
      match splitOnChar sep rest with
      | [] => [[c]]
      | g :: gs => (c :: g) :: gs

/-- Digit-run to number, the char-level analogue of `parseInt` on a
regex digit group: `none` unless the run is non-empty and all digits. -/
def charsToNat? (l : List Char) : Option ℕ :=
  if l ≠ [] ∧ l.all Char.isDigit then
    some (l.foldl (fun n c => n * 10 + (c.toNat - 48)) 0)
  else none

/-- Parse an `h:mm AM/PM` string back to `(hours, minutes, period)`,
modelling the regex `/(\d+):(\d+)\s*(AM|PM)/i` match in the allocator
at the character level. -/
def parseTime12 (s : String) : Option (ℕ × ℕ × List Char) :=
  match splitOnChar ' ' s.data with
  | [hm, period] =>
    match splitOnChar ':' hm with
    | [h, m] =>
      match charsToNat? h, charsToNat? m with
      | some hh, some mm => some (hh, mm, period)
      | _, _ => none
    | _ => none
  | _ => none

/-- The 24-hour start time of the next provisional session on a day:
8:00 for an empty day, otherwise the regex-parsed end time of the day's
last session converted from 12-hour form (`toUpperCase` modelled per
character). -/
def nextStartTime (startHour : ℕ) (day : Day) : ℕ × ℕ :=
  match day.sessions.getLast? with
  | none => (startHour, 0)
  | some lastSession =>
    match parseTime12 lastSession.endTime with
    | none => (startHour, 0)
    | some (h, m, period) =>
      let h := if period.map Char.toUpper = ['P', 'M'] ∧ h ≠ 12 then h + 12 else h
      let h := if period.map Char.toUpper = ['A', 'M'] ∧ h = 12 then 0 else h
      (h, m)

/-- A break session object as pushed by both generators. -/
def breakSession (startTime endTime : String) (breakDuration : ℕ) : Session :=
  { subject := "Break", subjectId := none, startTime := startTime, endTime := endTime,
    duration := breakDuration, type := SType.brk, completed := false,
    color := "#9CA3AF", difficulty := none }

/-- Whether `c < minSessions` where `none` stands for the initial
`Infinity`. -/
def ltOpt (c : ℕ) : Option ℕ → Prop
  | none => True
  | some m => c < m

instance : (c : ℕ) → (ms : Option ℕ) → Decidable (ltOpt c ms)
  | _, none => isTrue trivial
  | c, some m => Nat.decLt c m

/-- The target-day scan of the allocator: walk the given day indices
keeping `(targetDay, minSessions)`, replacing the pair whenever the
day's study count is under capacity and strictly below the running
minimum (`minSessions` starts as `Infinity`, modelled `none`). -/
def findTargetGo (counts : ℕ → ℕ) (maxS : ℕ) : List ℕ → ℕ → Option ℕ → ℕ × Option ℕ
  | [], td, ms => (td, ms)
  | d :: rest, td, ms =>
    if counts d < maxS ∧ ltOpt (counts d) ms
    then findTargetGo counts maxS rest d (some (counts d))
    else findTargetGo counts maxS rest td ms

/-- One iteration of the allocator's `sessionPool.forEach` body:
pick the target day by scanning days 0..6, skip when that day is at
capacity, otherwise append a study session (start time taken from the
day's last session, 8:00 on an empty day) and, while the day is not at
its last possible study slot, a break; then advance `currentDay`. -/
def placeToken (sD bD maxS startHour : ℕ) (st : List Day × ℕ) (tok : SessionToken) :
    List Day × ℕ :=
  let timetable := st.1
  let currentDay := st.2
  let counts := fun d => studyCount (timetable.getD d defaultDay)
  let targetDay := (findTargetGo counts maxS [0, 1, 2, 3, 4, 5, 6] currentDay none).1
  let day := timetable.getD targetDay defaultDay
  let currentStudySessions := studyCount day
  if currentStudySessions ≥ maxS then st
  else
    let start := nextStartTime startHour day
    let studyEnd := addMinutes start.1 start.2 sD
    let newStudy : Session :=
      { subject := tok.subject, subjectId := tok.subjectId,
        startTime := formatTime start.1 start.2,
        endTime := formatTime studyEnd.1 studyEnd.2,
        duration := sD, type := SType.study, completed := false,
        color := tok.color, difficulty := none }
    let day1 :=
      { day with sessions := day.sessions ++ [newStudy],
                 totalStudyMinutes := day.totalStudyMinutes + sD }
    let day2 :=
      if currentStudySessions < maxS - 1 then
        let breakEnd := addMinutes studyEnd.1 studyEnd.2 bD
        { day1 with
            sessions := day1.sessions ++
              [breakSession (formatTime studyEnd.1 studyEnd.2)
                (formatTime breakEnd.1 breakEnd.2) bD],
            totalBreakMinutes := day1.totalBreakMinutes + bD }
      else day1
    (timetable.set targetDay day2, (currentDay + 1) % 7)

/-- The seven freshly initialised `Day` records. -/
def initTimetable : List Day :=
  (List.range 7).map fun index =>
    { dayOfWeek := index, dayName := DAYS.getD index "", sessions := [],
      totalStudyMinutes := 0, totalBreakMinutes := 0 }

/-- The provisional distribution pass: fold the ordered pool through
`placeToken`, starting from the empty week and `currentDay = 0`. -/
def allocate (sD bD maxS : ℕ) (pool : List SessionToken) : List Day × ℕ :=
  pool.foldl (placeToken sD bD maxS 8) (initTimetable, 0)

/-- The difficulty key used by the per-day re-sort:
`DIFFICULTY_WEIGHTS[a.difficulty] || 1` where `a.difficulty` is absent
(`undefined`) on every session the placement pass pushed. -/
def sessionDW (s : Session) : ℚ :=
  match s.difficulty with
  | some d => difficultyWeight d
  | none => 1

/-- Rebuild a day's session list from its (sorted) study sessions:
re-timestamp each study block from the running clock and put exactly one
break after it unless it is the last one. -/
def rebuildGo (sD bD : ℕ) : List Session → ℕ → ℕ → List Session
  | [], _, _ => []
  | [session], h, m =>
    [{ session with startTime := formatTime h m,
                    endTime := formatTime (addMinutes h m sD).1 (addMinutes h m sD).2 }]
  | session :: next :: rest, h, m =>
    { session with startTime := formatTime h m,
                   endTime := formatTime (addMinutes h m sD).1 (addMinutes h m sD).2 }
      :: breakSession (formatTime (addMinutes h m sD).1 (addMinutes h m sD).2)
          (formatTime (addMinutes (addMinutes h m sD).1 (addMinutes h m sD).2 bD).1
            (addMinutes (addMinutes h m sD).1 (addMinutes h m sD).2 bD).2) bD
      :: rebuildGo sD bD (next :: rest)
          (addMinutes (addMinutes h m sD).1 (addMinutes h m sD).2 bD).1
          (addMinutes (addMinutes h m sD).1 (addMinutes h m sD).2 bD).2

/-- The allocator's second pass over one day: keep only the study
sessions, sort them by (absent) difficulty weight descending, and
rebuild the session list with fresh timestamps from `startHour`:00.
The running totals are left untouched, exactly as in the source. -/
def rebuildDay (sD bD startHour : ℕ) (day : Day) : Day :=
  let studySessions := day.sessions.filter isStudy
  let sorted := sortDescBy sessionDW studySessions
  { day with sessions := rebuildGo sD bD sorted startHour 0 }

/-- The enriched per-subject record of `generateTimetable`. -/
structure SubjectData where
  subject : Subject
  sessionsNeeded : ℕ
  priority : ℚ

/-- Build the flat pool of session tokens from the priority-sorted
subject data: one token per required session unit. -/
def buildPool (subjects : List Subject) (sD : ℕ) : List SessionToken :=
  let subjectData := subjects.map fun subject =>
    { subject := subject
      sessionsNeeded := sessionsNeeded subject.weeklyHours sD
      priority := calculatePriority subject : SubjectData }
  let subjectData := sortDescBy (fun sd => sd.priority) subjectData
  subjectData.flatMap fun sd =>
    List.replicate sd.sessionsNeeded
      { subject := sd.subject.name, subjectId := some sd.subject.id,
        color := sd.subject.color, difficulty := sd.subject.difficulty,
        priority := sd.priority }

/-- `generateTimetable(subjects, preferences)`.  The `shuffle`
parameter stands for the `Math.random`-driven Fisher–Yates pass over
the pool; everything after it is deterministic. -/
def generateTimetable (shuffle : List SessionToken → List SessionToken)
    (subjects : List Subject) (preferences : Preferences) : List Day :=
  let dailyMinutes := preferences.dailyHours * 60
  let sD := preferences.sessionDuration
  let bD := preferences.breakDuration
  let maxSessionsPerDay := dailyMinutes / sD
  let sessionPool := sortDescBy (fun t => t.priority) (shuffle (buildPool subjects sD))
  ((allocate sD bD maxSessionsPerDay sessionPool).1).map (rebuildDay sD bD 8)

/-- The session-building loop of `regenerateDay`: `i` is the loop
index, `fuel` the number of iterations left
(`min(maxSessions, shuffledSubjects.length)` at the top call), and the
break is appended while `i < maxSessions - 1`. -/
def regenGo (shuffled : List Subject) (sD bD maxS : ℕ) : ℕ → ℕ → ℕ → ℕ → List Session
  | _, 0, _, _ => []
  | i, fuel + 1, h, m =>
    let subject := shuffled.getD (i % shuffled.length) defaultSubject
    let studyEnd := addMinutes h m sD
    let study : Session :=
      { subject := subject.name, subjectId := some subject.id,
        startTime := formatTime h m, endTime := formatTime studyEnd.1 studyEnd.2,
        duration := sD, type := SType.study, completed := false,
        color := subject.color, difficulty := none }
    if i < maxS - 1 then
      let breakEnd := addMinutes studyEnd.1 studyEnd.2 bD
      study :: breakSession (formatTime studyEnd.1 studyEnd.2)
          (formatTime breakEnd.1 breakEnd.2) bD
        :: regenGo shuffled sD bD maxS (i + 1) fuel breakEnd.1 breakEnd.2
    else
      study :: regenGo shuffled sD bD maxS (i + 1) fuel studyEnd.1 studyEnd.2

/-- `regenerateDay(dayTimetable, subjects, preferences)`: shuffle the
subject list and cycle through it for up to
`min(maxSessions, subjects.length)` study slots starting at 8:00.
The `dayTimetable` argument is never read, exactly as in the source. -/
def regenerateDay (shuffle : List Subject → List Subject) (dayTimetable : Day)
    (subjects : List Subject) (preferences : Preferences) : List Session :=
  let sD := preferences.sessionDuration
  let bD := preferences.breakDuration
  let shuffled := shuffle subjects
  let maxSessions := preferences.dailyHours * 60 / sD
  regenGo shuffled sD bD maxSessions 0 (min maxSessions shuffled.length) 8 0

/-- The session-type pattern `regenerateDay` actually produces for `n`
study slots under capacity `maxS`: a study block for every slot, each
followed by a break while the slot index is below `maxS - 1`. -/
def regenPattern (n maxS : ℕ) : List SType :=
  (List.range n).flatMap fun i =>
    SType.study :: if i < maxS - 1 then [SType.brk] else []

/-- Non-increasing difficulty-weight order of the study sessions of a
final day, read through the day's subjects: consecutive study sessions
have non-increasing `difficultyWeight`. -/
def studyWeights (subjects : List Subject) (d : Day) : List ℚ :=
  (d.sessions.filter isStudy).map fun s =>
    difficultyWeight (((subjects.find? fun sub => sub.name == s.subject).getD
      defaultSubject).difficulty)

/-- Concrete subject exercising the stale-break-totals path: one easy
subject needing three sessions. -/
def mathS : Subject :=
  { name := "Math", id := 1, color := "#fff", difficulty := "easy",
    examPriority := some 0, weeklyHours := 1 }

def prefsC1 : Preferences :=
  { dailyHours := 4, sessionDuration := 25, breakDuration := 5 }

/-- High-priority easy subject needing seven sessions. -/
def sA : Subject :=
  { name := "A", id := 1, color := "#a", difficulty := "easy",
    examPriority := some 10, weeklyHours := 7 }

/-- Low-priority hard subject needing one session. -/
def sB : Subject :=
  { name := "B", id := 2, color := "#b", difficulty := "hard",
    examPriority := some 0, weeklyHours := 1 }

def prefsC4 : Preferences :=
  { dailyHours := 4, sessionDuration := 60, breakDuration := 5 }

def s1 : Subject :=
  { name := "S1", id := 1, color := "#1", difficulty := "easy",
    examPriority := some 0, weeklyHours := 1 }

def s2 : Subject :=
  { name := "S2", id := 2, color := "#2", difficulty := "medium",
    examPriority := some 0, weeklyHours := 1 }

def s3 : Subject :=
  { name := "S3", id := 3, color := "#3", difficulty := "hard",
    examPriority := some 0, weeklyHours := 1 }

/-- Preferences giving `maxSessionsPerDay = 4`. -/
def prefsRegen : Preferences :=
  { dailyHours := 2, sessionDuration := 30, breakDuration := 5 }

/-- A stub token used to instantiate placement-step theorems. -/
def tokStub : SessionToken :=
  { subject := "Math", subjectId := some 1, color := "#fff", difficulty := "easy", priority := 1 }

/-- Preferences whose session length exceeds the daily budget. -/
def prefsDeg : Preferences :=
  { dailyHours := 1, sessionDuration := 90, breakDuration := 5 }

/-- The session tokens the concrete inputs above generate. -/
def tokMath : SessionToken :=
  { subject := "Math", subjectId := some 1, color := "#fff", difficulty := "easy",
    priority := calculatePriority mathS }

def tokA : SessionToken :=
  { subject := "A", subjectId := some 1, color := "#a", difficulty := "easy",
    priority := calculatePriority sA }

def tokB : SessionToken :=
  { subject := "B", subjectId := some 2, color := "#b", difficulty := "hard",
    priority := calculatePriority sB }

end StudyMate

namespace StudyMate

theorem ceil_div_nat (a b : ℕ) (hb : 0 < b) : ⌈(a : ℚ) / b⌉₊ = (a + b - 1) / b := by
  rcases Nat.eq_zero_or_pos a with ha | ha
  · subst ha
    simp
    rw [Nat.div_eq_of_lt (by omega)]
  · have hbq : (0 : ℚ) < b := by exact_mod_cast hb
    have hdm := Nat.div_add_mod (a + b - 1) b
    have hmod := Nat.mod_lt (a + b - 1) hb
    have hms : b * ((a + b - 1) / b + 1) = b * ((a + b - 1) / b) + b := Nat.mul_succ _ _
    have hpred : b * ((a + b - 1) / b - 1) = b * ((a + b - 1) / b) - b := by
      rw [Nat.sub_one, Nat.mul_pred]
    have hA : a ≤ b * ((a + b - 1) / b) := by omega
    have hB : b * ((a + b - 1) / b - 1) < a := by omega
    have hn1 : (a + b - 1) / b ≠ 0 :=
      Nat.pos_iff_ne_zero.mp (Nat.div_pos (by omega) hb)
    rw [Nat.ceil_eq_iff hn1]
    constructor
    · rw [lt_div_iff₀ hbq]
      exact_mod_cast (by rw [Nat.mul_comm]; exact hB : ((a + b - 1) / b - 1) * b < a)
    · rw [div_le_iff₀ hbq]
      exact_mod_cast (by rw [Nat.mul_comm]; exact hA : a ≤ ((a + b - 1) / b) * b)

theorem sessionsNeeded_eq (w s : ℕ) (hs : 0 < s) :
    sessionsNeeded w s = (w * 60 + s - 1) / s := by
  rw [sessionsNeeded, show ((w : ℚ) * 60) = ((w * 60 : ℕ) : ℚ) by push_cast; ring,
    ceil_div_nat _ _ hs]

/-- C7: the session demand is the exact ceiling of weekly minutes over
session length: partial remainders round up to a full session, exact
divisions do not, and one weekly hour already forces a session. -/
theorem sessionsNeeded_ceil (w s : ℕ) (hs : 0 < s) :
    sessionsNeeded w s = ⌈(w * 60 : ℚ) / s⌉₊
    ∧ (¬ s ∣ w * 60 → sessionsNeeded w s = w * 60 / s + 1)
    ∧ (s ∣ w * 60 → sessionsNeeded w s = w * 60 / s)
    ∧ (1 ≤ w → 1 ≤ sessionsNeeded w s) := by
  have heq := sessionsNeeded_eq w s hs
  refine ⟨rfl, ?_, ?_, ?_⟩
  · intro hndvd
    rw [heq]
    have h1 : (w * 60 + s) / s = w * 60 / s + 1 := Nat.add_div_right _ hs
    have h3 := Nat.succ_div (w * 60 + s - 1) s
    have h2 : w * 60 + s - 1 + 1 = w * 60 + s := by omega
    rw [h2, h1] at h3
    have hdvd : ¬ s ∣ w * 60 + s := by
      intro hd
      exact hndvd (by simpa using (Nat.dvd_sub' hd (dvd_refl s)))
    rw [if_neg hdvd] at h3
    omega
  · intro hdvd
    obtain ⟨k, hk⟩ := hdvd
    rw [heq, hk]
    have hk1 : s * k + s - 1 = (s - 1) + s * k := by omega
    rw [hk1, Nat.add_mul_div_left _ _ hs, Nat.div_eq_of_lt (by omega),
      Nat.mul_div_cancel_left _ hs]
    omega
  · intro hw
    rw [heq]
    have : s ≤ w * 60 + s - 1 := by omega
    exact Nat.div_pos this hs

/-- C8: `addMinutes` composes: adding `d1` then `d2` equals adding
`d1 + d2` at once, and both equal the total minute count modulo one day
split into hour-of-day and minute. -/
theorem addMinutes_comp (h m d1 d2 : ℕ) :
    addMinutes (addMinutes h m d1).1 (addMinutes h m d1).2 d2 = addMinutes h m (d1 + d2)
    ∧ addMinutes h m (d1 + d2)
      = ((h * 60 + m + (d1 + d2)) % 1440 / 60, (h * 60 + m + (d1 + d2)) % 1440 % 60) := by
  refine ⟨?_, ?_⟩ <;> simp only [addMinutes, Prod.mk.injEq] <;> constructor <;> omega

/-- C10: `regenerateDay` never reads its day argument, so its output is
the same for any two existing days (given the same shuffle outcome,
subjects and preferences). -/
theorem regenerateDay_ignores_day (shuffle : List Subject → List Subject)
    (d1 d2 : Day) (subjects : List Subject) (preferences : Preferences) :
    regenerateDay shuffle d1 subjects preferences
      = regenerateDay shuffle d2 subjects preferences := rfl

theorem difficultyWeight_easy : difficultyWeight "easy" = 1 := by
  rw [difficultyWeight, if_pos rfl]

theorem difficultyWeight_medium : difficultyWeight "medium" = 3/2 := by
  rw [difficultyWeight, if_neg (by decide), if_pos rfl]

theorem difficultyWeight_hard : difficultyWeight "hard" = 2 := by
  rw [difficultyWeight, if_neg (by decide), if_neg (by decide), if_pos rfl]

/-- C6: the priority score is the product of the difficulty weight
(easy 1, medium 1.5, hard 2, unknown 1), the exam weight
`1 + 0.2 × examPriority` (0 when absent) and the saturating hours
weight `min(weeklyHours / 10, 2)`. -/
theorem calculatePriority_spec (s : Subject) (d : String)
    (h1 : d ≠ "easy") (h2 : d ≠ "medium") (h3 : d ≠ "hard") :
    calculatePriority s
      = difficultyWeight s.difficulty
        * (1 + (0.2 : ℚ) * (s.examPriority.getD 0 : ℚ))
        * min ((s.weeklyHours : ℚ) / 10) 2
    ∧ difficultyWeight "easy" = 1 ∧ difficultyWeight "medium" = 1.5
    ∧ difficultyWeight "hard" = 2 ∧ difficultyWeight d = 1 := by
  refine ⟨?_, by rw [difficultyWeight_easy], by rw [difficultyWeight_medium]; norm_num,
    by rw [difficultyWeight_hard], by simp [difficultyWeight, h1, h2, h3]⟩
  rw [calculatePriority]
  ring_nf

theorem calculatePriority_spec_witness :
    ("calculus" ≠ "easy" ∧ "calculus" ≠ "medium" ∧ "calculus" ≠ "hard")
    ∧ (calculatePriority mathS
        = difficultyWeight mathS.difficulty
          * (1 + (0.2 : ℚ) * (mathS.examPriority.getD 0 : ℚ))
          * min ((mathS.weeklyHours : ℚ) / 10) 2
      ∧ difficultyWeight "easy" = 1 ∧ difficultyWeight "medium" = 1.5
      ∧ difficultyWeight "hard" = 2 ∧ difficultyWeight "calculus" = 1) :=
  ⟨by refine ⟨?_, ?_, ?_⟩ <;> decide,
   calculatePriority_spec mathS "calculus" (by decide) (by decide) (by decide)⟩

theorem sessionsNeeded_ceil_witness :
    0 < 25
    ∧ (sessionsNeeded 1 25 = ⌈(1 * 60 : ℚ) / 25⌉₊
      ∧ (¬ 25 ∣ 1 * 60 → sessionsNeeded 1 25 = 1 * 60 / 25 + 1)
      ∧ (25 ∣ 1 * 60 → sessionsNeeded 1 25 = 1 * 60 / 25)
      ∧ (1 ≤ 1 → 1 ≤ sessionsNeeded 1 25)) :=
  ⟨by decide, sessionsNeeded_ceil 1 25 (by decide)⟩

end StudyMate

namespace StudyMate

theorem regenGo_types (shuffled : List Subject) (sD bD maxS : ℕ) :
    ∀ fuel i h m, (regenGo shuffled sD bD maxS i fuel h m).map Session.type
      = (List.range' i fuel).flatMap
          (fun j => SType.study :: if j < maxS - 1 then [SType.brk] else []) := by
  intro fuel
  induction fuel with
  | zero => intro i h m; simp [regenGo]
  | succ n ih =>
    intro i h m
    rw [regenGo]
    by_cases hc : i < maxS - 1
    · simp only [if_pos hc, List.range'_succ, List.flatMap_cons, List.map_cons, ih,
        breakSession]
      simp [hc]
    · simp only [if_neg hc, List.range'_succ, List.flatMap_cons, List.map_cons, ih]
      simp [hc]

theorem regenPattern_eq (n maxS : ℕ) :
    regenPattern n maxS
      = (List.range' 0 n).flatMap
          (fun j => SType.study :: if j < maxS - 1 then [SType.brk] else []) := by
  rw [regenPattern, List.range_eq_range']

theorem regenPattern_getLast (n maxS : ℕ) (hn : 0 < n) :
    (regenPattern n maxS).getLast? = some (if n < maxS then SType.brk else SType.study) := by
  obtain ⟨k, rfl⟩ : ∃ k, n = k + 1 := ⟨n - 1, by omega⟩
  rw [regenPattern, List.range_succ, List.flatMap_append]
  rw [List.getLast?_append]
  by_cases hc : k < maxS - 1
  · simp [hc, show k + 1 < maxS by omega]
  · simp only [List.flatMap_cons, List.flatMap_nil]
    simp [hc, show ¬ (k + 1 < maxS) by omega]

end StudyMate

namespace StudyMate

theorem filter_isStudy_length (l : List Session) :
    (l.filter isStudy).length = (l.map Session.type).count SType.study := by
  induction l with
  | nil => rfl
  | cons s rest ih =>
    by_cases hs : s.type = SType.study
    · simp [isStudy, List.count_cons, hs, ih]
    · simp [isStudy, List.count_cons, hs, ih]

theorem regenPattern_count (n maxS : ℕ) : (regenPattern n maxS).count SType.study = n := by
  induction n with
  | zero => simp [regenPattern]
  | succ k ih =>
    rw [regenPattern, List.range_succ, List.flatMap_append,
      List.count_append, show (List.range k).flatMap
        (fun i => SType.study :: if i < maxS - 1 then [SType.brk] else [])
        = regenPattern k maxS from rfl, ih]
    by_cases hc : k < maxS - 1
    · simp [hc]
    · simp [hc]

/-- C2 counterexample: with 3 subjects and `maxSessionsPerDay = 4`
(`dailyHours` 2, `sessionDuration` 30), `regenerateDay` emits 3 breaks,
the last session being a break. -/
theorem regenerateDay_trailing_break :
    ((regenerateDay id defaultDay [s1, s2, s3] prefsRegen).map Session.type).getLast?
      = some SType.brk
    ∧ ((regenerateDay id defaultDay [s1, s2, s3] prefsRegen).filter isBreak).length = 3 := by
  constructor <;> decide

/-- C2 amended: `regenerateDay` emits `min(maxSessions, subjects.length)`
study sessions, a break after each one whose slot index is below
`maxSessions - 1`; hence a break sits between consecutive study sessions,
and the sequence additionally ends in a break exactly when
`subjects.length < maxSessions`. -/
theorem regenerateDay_sessions (shuffle : List Subject → List Subject) (d : Day)
    (subjects : List Subject) (preferences : Preferences)
    (hsh : (shuffle subjects).Perm subjects) :
    (regenerateDay shuffle d subjects preferences).map Session.type
      = regenPattern
          (min (preferences.dailyHours * 60 / preferences.sessionDuration) subjects.length)
          (preferences.dailyHours * 60 / preferences.sessionDuration)
    ∧ ((regenerateDay shuffle d subjects preferences).filter isStudy).length
      = min (preferences.dailyHours * 60 / preferences.sessionDuration) subjects.length
    ∧ (0 < min (preferences.dailyHours * 60 / preferences.sessionDuration) subjects.length →
        ((regenerateDay shuffle d subjects preferences).map Session.type).getLast?
          = some (if subjects.length < preferences.dailyHours * 60 / preferences.sessionDuration
              then SType.brk else SType.study)) := by
  have hlen : (shuffle subjects).length = subjects.length := hsh.length_eq
  have htypes : (regenerateDay shuffle d subjects preferences).map Session.type
      = regenPattern
          (min (preferences.dailyHours * 60 / preferences.sessionDuration) subjects.length)
          (preferences.dailyHours * 60 / preferences.sessionDuration) := by
    rw [regenerateDay, regenGo_types, hlen, regenPattern_eq]
  refine ⟨htypes, ?_, ?_⟩
  · rw [filter_isStudy_length, htypes, regenPattern_count]
  · intro hpos
    rw [htypes]
    have hx := regenPattern_getLast _ (preferences.dailyHours * 60 / preferences.sessionDuration) hpos
    rw [hx]
    congr 1
    by_cases hc : subjects.length < preferences.dailyHours * 60 / preferences.sessionDuration
    · rw [if_pos hc, if_pos (by omega)]
    · rw [if_neg hc, if_neg (by omega)]

end StudyMate

namespace StudyMate

theorem regenerateDay_sessions_witness :
    (id [s1, s2, s3]).Perm [s1, s2, s3]
    ∧ ((regenerateDay id defaultDay [s1, s2, s3] prefsRegen).map Session.type
        = regenPattern
            (min (prefsRegen.dailyHours * 60 / prefsRegen.sessionDuration) [s1, s2, s3].length)
            (prefsRegen.dailyHours * 60 / prefsRegen.sessionDuration)
      ∧ ((regenerateDay id defaultDay [s1, s2, s3] prefsRegen).filter isStudy).length
        = min (prefsRegen.dailyHours * 60 / prefsRegen.sessionDuration) [s1, s2, s3].length
      ∧ (0 < min (prefsRegen.dailyHours * 60 / prefsRegen.sessionDuration) [s1, s2, s3].length →
          ((regenerateDay id defaultDay [s1, s2, s3] prefsRegen).map Session.type).getLast?
            = some (if [s1, s2, s3].length < prefsRegen.dailyHours * 60 / prefsRegen.sessionDuration
                then SType.brk else SType.study))) :=
  ⟨List.Perm.refl _,
   regenerateDay_sessions id defaultDay [s1, s2, s3] prefsRegen (List.Perm.refl _)⟩

end StudyMate

namespace StudyMate

theorem insertDescBy_perm (f : α → ℚ) (x : α) (l : List α) :
    (insertDescBy f x l).Perm (x :: l) := by
  induction l with
  | nil => simp [insertDescBy]
  | cons y ys ih =>
    rw [insertDescBy]
    by_cases hc : f x ≥ f y
    · rw [if_pos hc]
    · rw [if_neg hc]
      exact (List.Perm.cons y ih).trans (List.Perm.swap x y ys)

theorem sortDescBy_perm (f : α → ℚ) (l : List α) : (sortDescBy f l).Perm l := by
  induction l with
  | nil => simp [sortDescBy]
  | cons x xs ih =>
    rw [sortDescBy]
    exact (insertDescBy_perm f x (sortDescBy f xs)).trans (List.Perm.cons x ih)

theorem rebuildGo_countP (sD bD : ℕ) (l : List Session) (h m : ℕ) :
    ((rebuildGo sD bD l h m).filter isStudy).length = (l.filter isStudy).length := by
  induction l, h, m using rebuildGo.induct sD bD with
  | case1 h m => rfl
  | case2 session h m =>
    cases htype : session.type <;> simp [rebuildGo, List.filter_cons, isStudy, htype]
  | case3 session next rest h m ih =>
    rw [rebuildGo]
    cases htype : session.type <;>
      simp [List.filter_cons, isStudy, breakSession, htype, ih]

theorem studyCount_rebuildDay (sD bD sH : ℕ) (d : Day) :
    studyCount (rebuildDay sD bD sH d) = studyCount d := by
  have h1 : ∀ l : List Session, (l.filter isStudy).length = l.countP isStudy := by
    intro l
    rw [List.countP_eq_length_filter]
  rw [rebuildDay, studyCount, studyCount]
  simp only []
  rw [rebuildGo_countP, h1, (sortDescBy_perm sessionDW _).countP_eq, ← h1]
  simp [List.filter_filter]

end StudyMate

namespace StudyMate

theorem placeToken_cases (sD bD maxS sH : ℕ) (st : List Day × ℕ) (tok : SessionToken) :
    (studyCount (st.1.getD (findTargetGo (fun d => studyCount (st.1.getD d defaultDay)) maxS
          [0, 1, 2, 3, 4, 5, 6] st.2 none).1 defaultDay) ≥ maxS
      ∧ placeToken sD bD maxS sH st tok = st)
    ∨ (studyCount (st.1.getD (findTargetGo (fun d => studyCount (st.1.getD d defaultDay)) maxS
          [0, 1, 2, 3, 4, 5, 6] st.2 none).1 defaultDay) < maxS
      ∧ ∃ day2, placeToken sD bD maxS sH st tok
            = (st.1.set (findTargetGo (fun d => studyCount (st.1.getD d defaultDay)) maxS
                [0, 1, 2, 3, 4, 5, 6] st.2 none).1 day2, (st.2 + 1) % 7)
          ∧ studyCount day2
            = studyCount (st.1.getD (findTargetGo (fun d => studyCount (st.1.getD d defaultDay)) maxS
                [0, 1, 2, 3, 4, 5, 6] st.2 none).1 defaultDay) + 1) := by
  rw [placeToken]
  simp only []
  split_ifs with hguard hbrk
  · exact Or.inl ⟨hguard, rfl⟩
  · refine Or.inr ⟨by omega, _, rfl, ?_⟩
    simp [studyCount, List.filter_append, isStudy, breakSession]
  · refine Or.inr ⟨by omega, _, rfl, ?_⟩
    simp [studyCount, List.filter_append, isStudy]

end StudyMate

namespace StudyMate

theorem getD_set_self (l : List Day) (i : ℕ) (d : Day) (hi : i < l.length) :
    (l.set i d).getD i defaultDay = d := by
  simp [List.getD, List.getElem?_set_self, hi]

theorem getD_set_ne (l : List Day) (i j : ℕ) (d : Day) (hij : i ≠ j) :
    (l.set i d).getD j defaultDay = l.getD j defaultDay := by
  simp [List.getD, List.getElem?_set_ne, hij]

theorem placeToken_studyCount_le (sD bD maxS sH : ℕ) (st : List Day × ℕ) (tok : SessionToken)
    (hinv : ∀ d, studyCount (st.1.getD d defaultDay) ≤ maxS) :
    ∀ d, studyCount ((placeToken sD bD maxS sH st tok).1.getD d defaultDay) ≤ maxS := by
  intro d
  rcases placeToken_cases sD bD maxS sH st tok with ⟨_, heq⟩ | ⟨hlt, day2, heq, hcnt⟩
  · rw [heq]
    exact hinv d
  · rw [heq]
    have hgen : ∃ t, t = (findTargetGo (fun d => studyCount (st.1.getD d defaultDay)) maxS
        [0, 1, 2, 3, 4, 5, 6] st.2 none).1 := ⟨_, rfl⟩
    obtain ⟨t, ht⟩ := hgen
    rw [← ht] at hlt hcnt ⊢
    by_cases hd : d = t
    · subst hd
      by_cases hlen : d < st.1.length
      · rw [getD_set_self _ _ _ hlen]
        omega
      · rw [List.set_eq_of_length_le (by omega)]
        exact hinv d
    · rw [getD_set_ne _ _ _ _ (fun h => hd h.symm)]
      exact hinv d

theorem initTimetable_studyCount (d : ℕ) :
    studyCount (initTimetable.getD d defaultDay) = 0 := by
  match d with
  | 0 | 1 | 2 | 3 | 4 | 5 | 6 => rfl
  | n + 7 =>
    rw [List.getD_eq_default]
    · rfl
    · simp [initTimetable]

theorem allocate_studyCount_le (sD bD maxS : ℕ) (pool : List SessionToken) :
    ∀ d, studyCount ((allocate sD bD maxS pool).1.getD d defaultDay) ≤ maxS := by
  rw [allocate]
  have hgen : ∀ (p : List SessionToken) (st : List Day × ℕ),
      (∀ d, studyCount (st.1.getD d defaultDay) ≤ maxS) →
      ∀ d, studyCount ((p.foldl (placeToken sD bD maxS 8) st).1.getD d defaultDay) ≤ maxS := by
    intro p
    induction p with
    | nil => intro st h; simpa using h
    | cons t rest ih =>
      intro st h
      rw [List.foldl_cons]
      exact ih _ (placeToken_studyCount_le _ _ _ _ _ _ h)
  apply hgen
  intro d
  rw [initTimetable_studyCount]
  omega

end StudyMate

namespace StudyMate

/-- C3: no day ever holds more study sessions than
`floor(dailyHours*60 / sessionDuration)`, both after the provisional
placement pass and in the final rebuilt timetable. -/
theorem generateTimetable_capacity (shuffle : List SessionToken → List SessionToken)
    (subjects : List Subject) (preferences : Preferences)
    (hs : 0 < preferences.sessionDuration) :
    (∀ day ∈ (allocate preferences.sessionDuration preferences.breakDuration
        (preferences.dailyHours * 60 / preferences.sessionDuration)
        (sortDescBy (fun t => t.priority)
          (shuffle (buildPool subjects preferences.sessionDuration)))).1,
      studyCount day ≤ preferences.dailyHours * 60 / preferences.sessionDuration)
    ∧ (∀ day ∈ generateTimetable shuffle subjects preferences,
      studyCount day ≤ preferences.dailyHours * 60 / preferences.sessionDuration) := by
  have hmem : ∀ (l : List Day) (day : Day), day ∈ l → ∃ i, i < l.length ∧ l.getD i defaultDay = day := by
    intro l day hday
    obtain ⟨i, hi, hget⟩ := List.mem_iff_getElem.mp hday
    exact ⟨i, hi, by rw [List.getD_eq_getElem l defaultDay hi, hget]⟩
  constructor
  · intro day hday
    obtain ⟨i, hi, hget⟩ := hmem _ day hday
    rw [← hget]
    exact allocate_studyCount_le _ _ _ _ i
  · intro day hday
    rw [generateTimetable] at hday
    simp only [List.mem_map] at hday
    obtain ⟨d0, hd0, hrw⟩ := hday
    rw [← hrw, studyCount_rebuildDay]
    obtain ⟨i, hi, hget⟩ := hmem _ d0 hd0
    rw [← hget]
    exact allocate_studyCount_le _ _ _ _ i

theorem generateTimetable_capacity_witness :
    0 < prefsC1.sessionDuration
    ∧ ((∀ day ∈ (allocate prefsC1.sessionDuration prefsC1.breakDuration
          (prefsC1.dailyHours * 60 / prefsC1.sessionDuration)
          (sortDescBy (fun t => t.priority)
            (id (buildPool [mathS] prefsC1.sessionDuration)))).1,
        studyCount day ≤ prefsC1.dailyHours * 60 / prefsC1.sessionDuration)
      ∧ (∀ day ∈ generateTimetable id [mathS] prefsC1,
        studyCount day ≤ prefsC1.dailyHours * 60 / prefsC1.sessionDuration)) :=
  ⟨by decide, generateTimetable_capacity id [mathS] prefsC1 (by decide)⟩

end StudyMate

namespace StudyMate

/-- Everything the target-day scan guarantees about its result, stated
for an arbitrary remaining day list and running state: `none` result
means no eligible day was met, a `some` result is the study count of the
chosen day, which is minimal among eligible scanned days with strict
minimality over the days scanned before it. -/
def ScanSpec (counts : ℕ → ℕ) (maxS : ℕ) (l : List ℕ) (td : ℕ) (ms : Option ℕ) : Prop :=
  ((findTargetGo counts maxS l td ms).2 = none →
    (findTargetGo counts maxS l td ms).1 = td ∧ ms = none ∧ ∀ d ∈ l, ¬ counts d < maxS)
  ∧ ∀ m, (findTargetGo counts maxS l td ms).2 = some m →
      counts (findTargetGo counts maxS l td ms).1 = m
      ∧ counts (findTargetGo counts maxS l td ms).1 < maxS
      ∧ ((findTargetGo counts maxS l td ms).1 = td ∧ ms = some m
          ∨ (findTargetGo counts maxS l td ms).1 ∈ l)
      ∧ (∀ d ∈ l, counts d < maxS → m ≤ counts d)
      ∧ (∀ m0, ms = some m0 → m ≤ m0)
      ∧ ((findTargetGo counts maxS l td ms).1 ≠ td → ∀ m0, ms = some m0 → m < m0)
      ∧ (∀ d ∈ l, counts d < maxS → d < (findTargetGo counts maxS l td ms).1 → m < counts d)

theorem findTargetGo_spec (counts : ℕ → ℕ) (maxS : ℕ) (l : List ℕ) :
    ∀ (td : ℕ) (ms : Option ℕ),
    l.Pairwise (· < ·) →
    (∀ m0, ms = some m0 → counts td = m0 ∧ counts td < maxS ∧ ∀ d ∈ l, td < d) →
    ScanSpec counts maxS l td ms := by
  induction l with
  | nil =>
    intro td ms hpw hseed
    constructor
    · intro h2
      refine ⟨rfl, ?_, by simp⟩
      cases ms with
      | none => rfl
      | some m0 => exact absurd h2 (by simp [findTargetGo])
    · intro m hm
      have hms : ms = some m := hm
      obtain ⟨h1, h2, _⟩ := hseed m hms
      exact ⟨h1, h2, Or.inl ⟨rfl, hms⟩, by simp, fun m0 h0 => by simp [hms] at h0; omega,
        fun hne => absurd rfl hne, by simp⟩
  | cons d0 rest ih =>
    intro td ms hpw hseed
    have hpw' : rest.Pairwise (· < ·) := hpw.of_cons
    have hd0lt : ∀ d ∈ rest, d0 < d := fun d hd => (List.pairwise_cons.mp hpw).1 d hd
    constructor
    · intro h2
      rw [findTargetGo] at h2 ⊢
      by_cases hc : counts d0 < maxS ∧ ltOpt (counts d0) ms
      · rw [if_pos hc] at h2
        obtain ⟨_, hms, _⟩ := (ih d0 (some (counts d0)) hpw'
          (fun m0 h0 => ⟨Option.some.inj h0, hc.1, hd0lt⟩)).1 h2
        exact absurd hms (by simp)
      · rw [if_neg hc] at h2 ⊢
        obtain ⟨hr1, hms, hall⟩ := (ih td ms hpw'
          (fun m0 h0 => (hseed m0 h0).imp id (fun h => h.imp id (fun h d hd => h d (List.mem_cons_of_mem _ hd))))).1 h2
        refine ⟨hr1, hms, ?_⟩
        intro d hd
        rcases List.mem_cons.mp hd with rfl | hd'
        · intro hlt
          exact hc ⟨hlt, by rw [hms]; trivial⟩
        · exact hall d hd'
    · intro m hm
      rw [findTargetGo] at hm ⊢
      by_cases hc : counts d0 < maxS ∧ ltOpt (counts d0) ms
      · rw [if_pos hc] at hm ⊢
        have hseed' : ∀ m0, (some (counts d0) : Option ℕ) = some m0 →
            counts d0 = m0 ∧ counts d0 < maxS ∧ ∀ d ∈ rest, d0 < d :=
          fun m0 h0 => ⟨by injection h0, hc.1, hd0lt⟩
        obtain ⟨q1, q2, q3, q4, q5, q6, q7⟩ := (ih d0 (some (counts d0)) hpw' hseed').2 m hm
        have hmd0 : m ≤ counts d0 := q5 (counts d0) rfl
        refine ⟨q1, q2, ?_, ?_, ?_, ?_, ?_⟩
        · rcases q3 with ⟨he, hs⟩ | hin
          · exact Or.inr (List.mem_cons.mpr (Or.inl he))
          · exact Or.inr (List.mem_cons_of_mem _ hin)
        · intro d hd hdlt
          rcases List.mem_cons.mp hd with rfl | hd'
          · exact hmd0
          · exact q4 d hd' hdlt
        · intro m0 h0
          have := hc.2
          rw [h0] at this
          have hlt : counts d0 < m0 := this
          omega
        · intro _ m0 h0
          have := hc.2
          rw [h0] at this
          have hlt : counts d0 < m0 := this
          omega
        · intro d hd hdlt hdr
          rcases List.mem_cons.mp hd with rfl | hd'
          · have hne : (findTargetGo counts maxS rest d (some (counts d))).1 ≠ d := by omega
            exact q6 hne (counts d) rfl
          · exact q7 d hd' hdlt hdr
      · rw [if_neg hc] at hm ⊢
        have hseed' : ∀ m0, ms = some m0 →
            counts td = m0 ∧ counts td < maxS ∧ ∀ d ∈ rest, td < d :=
          fun m0 h0 => (hseed m0 h0).imp id (fun h => h.imp id (fun h d hd => h d (List.mem_cons_of_mem _ hd)))
        obtain ⟨q1, q2, q3, q4, q5, q6, q7⟩ := (ih td ms hpw' hseed').2 m hm
        refine ⟨q1, q2, ?_, ?_, q5, q6, ?_⟩
        · rcases q3 with ⟨he, hs⟩ | hin
          · exact Or.inl ⟨he, hs⟩
          · exact Or.inr (List.mem_cons_of_mem _ hin)
        · intro d hd hdlt
          rcases List.mem_cons.mp hd with rfl | hd'
          · rcases hms : ms with _ | m0
            · exact absurd ⟨hdlt, by rw [hms]; trivial⟩ hc
            · have hle : m0 ≤ counts d := by
                by_contra hlt
                exact hc ⟨hdlt, by rw [hms]; exact (by omega : counts d < m0)⟩
              have := q5 m0 hms
              omega
          · exact q4 d hd' hdlt
        · intro d hd hdlt hdr
          rcases List.mem_cons.mp hd with rfl | hd'
          · rcases hms : ms with _ | m0
            · exact absurd ⟨hdlt, by rw [hms]; trivial⟩ hc
            · have hle : m0 ≤ counts d := by
                by_contra hlt
                exact hc ⟨hdlt, by rw [hms]; exact (by omega : counts d < m0)⟩
              have hner : (findTargetGo counts maxS rest td ms).1 ≠ td := by
                intro he
                have := (hseed m0 hms).2.2 d (List.mem_cons_self _ _)
                omega
              have := q6 hner m0 hms
              omega
          · exact q7 d hd' hdlt hdr

end StudyMate

namespace StudyMate

theorem mem_days_iff (d : ℕ) : d ∈ [0, 1, 2, 3, 4, 5, 6] ↔ d < 7 := by
  simp
  omega

/-- C5: one allocation step places its token on the day with the fewest
placed study sessions among the days still under capacity, the earliest
such day on ties; when every day is at capacity the token is silently
dropped, leaving the state unchanged. -/
theorem placeToken_policy (sD bD maxS sH : ℕ) (tt : List Day) (cur : ℕ) (tok : SessionToken)
    (htt : tt.length = 7) (hcur : cur < 7) :
    ((∀ d, d < 7 → ¬ studyCount (tt.getD d defaultDay) < maxS) →
      placeToken sD bD maxS sH (tt, cur) tok = (tt, cur))
    ∧ ((∃ d, d < 7 ∧ studyCount (tt.getD d defaultDay) < maxS) →
      ∃ t, t < 7 ∧ studyCount (tt.getD t defaultDay) < maxS
        ∧ (∀ d, d < 7 → studyCount (tt.getD d defaultDay) < maxS →
            studyCount (tt.getD t defaultDay) ≤ studyCount (tt.getD d defaultDay))
        ∧ (∀ d, d < t → studyCount (tt.getD d defaultDay) < maxS →
            studyCount (tt.getD t defaultDay) < studyCount (tt.getD d defaultDay))
        ∧ studyCount ((placeToken sD bD maxS sH (tt, cur) tok).1.getD t defaultDay)
            = studyCount (tt.getD t defaultDay) + 1
        ∧ (∀ d, d ≠ t →
            (placeToken sD bD maxS sH (tt, cur) tok).1.getD d defaultDay
              = tt.getD d defaultDay)) := by
  have hspec := findTargetGo_spec (fun d => studyCount (tt.getD d defaultDay)) maxS
    [0, 1, 2, 3, 4, 5, 6] cur none (by decide) (fun m0 h0 => by simp at h0)
  rw [ScanSpec] at hspec
  constructor
  · intro hfull
    cases hscan : (findTargetGo (fun d => studyCount (tt.getD d defaultDay)) maxS
        [0, 1, 2, 3, 4, 5, 6] cur none).2 with
    | some m =>
      obtain ⟨q1, q2, q3, _⟩ := hspec.2 m hscan
      rcases q3 with ⟨_, habs⟩ | hin
      · simp at habs
      · exact absurd q2 (hfull _ ((mem_days_iff _).mp hin))
    | none =>
      obtain ⟨hr1, _, _⟩ := hspec.1 hscan
      have hPC := placeToken_cases sD bD maxS sH (tt, cur) tok
      dsimp only at hPC
      rcases hPC with ⟨_, heq⟩ | ⟨hlt, day2, heq, hcnt⟩
      · exact heq
      · rw [hr1] at hlt
        exact absurd hlt (hfull cur hcur)
  · intro ⟨de, hde7, hdelt⟩
    cases hscan : (findTargetGo (fun d => studyCount (tt.getD d defaultDay)) maxS
        [0, 1, 2, 3, 4, 5, 6] cur none).2 with
    | none =>
      obtain ⟨_, _, hall⟩ := hspec.1 hscan
      exact absurd hdelt (hall de ((mem_days_iff _).mpr hde7))
    | some m =>
      obtain ⟨q1, q2, q3, q4, q5, q6, q7⟩ := hspec.2 m hscan
      have ht7 : (findTargetGo (fun d => studyCount (tt.getD d defaultDay)) maxS
          [0, 1, 2, 3, 4, 5, 6] cur none).1 < 7 := by
        rcases q3 with ⟨_, habs⟩ | hin
        · simp at habs
        · exact (mem_days_iff _).mp hin
      refine ⟨_, ht7, q2, ?_, ?_, ?_, ?_⟩
      · intro d hd7 hdlt
        have := q4 d ((mem_days_iff _).mpr hd7) hdlt
        omega
      · intro d hdt hdlt
        have := q7 d ((mem_days_iff _).mpr (by omega)) hdlt hdt
        omega
      · have hPC := placeToken_cases sD bD maxS sH (tt, cur) tok
        dsimp only at hPC
        rcases hPC with ⟨hge, _⟩ | ⟨hlt, day2, heq, hcnt⟩
        · exact absurd q2 (by omega)
        · rw [heq]
          rw [getD_set_self _ _ _ (by omega)]
          omega
      · intro d hdt
        have hPC := placeToken_cases sD bD maxS sH (tt, cur) tok
        dsimp only at hPC
        rcases hPC with ⟨hge, heq⟩ | ⟨hlt, day2, heq, hcnt⟩
        · exact absurd q2 (by omega)
        · rw [heq]
          exact getD_set_ne _ _ _ _ (fun h => hdt h.symm)

end StudyMate

namespace StudyMate

theorem placeToken_policy_witness :
    (initTimetable.length = 7 ∧ (0 : ℕ) < 7)
    ∧ (((∀ d, d < 7 → ¬ studyCount (initTimetable.getD d defaultDay) < 1) →
        placeToken 25 5 1 8 (initTimetable, 0) tokStub = (initTimetable, 0))
      ∧ ((∃ d, d < 7 ∧ studyCount (initTimetable.getD d defaultDay) < 1) →
        ∃ t, t < 7 ∧ studyCount (initTimetable.getD t defaultDay) < 1
          ∧ (∀ d, d < 7 → studyCount (initTimetable.getD d defaultDay) < 1 →
              studyCount (initTimetable.getD t defaultDay)
                ≤ studyCount (initTimetable.getD d defaultDay))
          ∧ (∀ d, d < t → studyCount (initTimetable.getD d defaultDay) < 1 →
              studyCount (initTimetable.getD t defaultDay)
                < studyCount (initTimetable.getD d defaultDay))
          ∧ studyCount ((placeToken 25 5 1 8 (initTimetable, 0) tokStub).1.getD t defaultDay)
              = studyCount (initTimetable.getD t defaultDay) + 1
          ∧ (∀ d, d ≠ t →
              (placeToken 25 5 1 8 (initTimetable, 0) tokStub).1.getD d defaultDay
                = initTimetable.getD d defaultDay))) :=
  ⟨⟨by decide, by decide⟩,
   placeToken_policy 25 5 1 8 initTimetable 0 tokStub (by decide) (by decide)⟩

end StudyMate

namespace StudyMate

theorem placeToken_max_zero (sD bD sH : ℕ) (st : List Day × ℕ) (tok : SessionToken) :
    placeToken sD bD 0 sH st tok = st := by
  rw [placeToken]
  simp only []
  rw [if_pos (Nat.zero_le _)]

theorem foldl_placeToken_max_zero (sD bD : ℕ) (pool : List SessionToken) :
    ∀ st : List Day × ℕ, pool.foldl (placeToken sD bD 0 8) st = st := by
  induction pool with
  | nil => intro st; rfl
  | cons t rest ih =>
    intro st
    rw [List.foldl_cons, placeToken_max_zero]
    exact ih st

theorem rebuildDay_nil (sD bD sH : ℕ) (d : Day) (hd : d.sessions = []) :
    (rebuildDay sD bD sH d).sessions = [] := by
  rw [rebuildDay]
  simp [hd, sortDescBy, rebuildGo]

/-- C9: the allocator degrades gracefully: an empty subject list yields
the seven Monday-first day records with no sessions and zero totals, and
a zero per-day session capacity (session length exceeding the daily
budget) yields a timetable in which no day has any session. -/
theorem generateTimetable_degrades (shuffle : List SessionToken → List SessionToken)
    (subjects : List Subject) (preferences : Preferences)
    (hsh : ∀ l, (shuffle l).Perm l) :
    (subjects = [] → generateTimetable shuffle subjects preferences
        = [⟨0, "Monday", [], 0, 0⟩, ⟨1, "Tuesday", [], 0, 0⟩, ⟨2, "Wednesday", [], 0, 0⟩,
           ⟨3, "Thursday", [], 0, 0⟩, ⟨4, "Friday", [], 0, 0⟩, ⟨5, "Saturday", [], 0, 0⟩,
           ⟨6, "Sunday", [], 0, 0⟩])
    ∧ (preferences.dailyHours * 60 / preferences.sessionDuration = 0 →
        ∀ day ∈ generateTimetable shuffle subjects preferences, day.sessions = []) := by
  constructor
  · rintro rfl
    have h0 : shuffle (buildPool [] preferences.sessionDuration) = [] :=
      (hsh (buildPool [] preferences.sessionDuration)).eq_nil
    rw [generateTimetable, h0]
    rfl
  · intro hmax day hday
    rw [generateTimetable] at hday
    rw [hmax, allocate, foldl_placeToken_max_zero] at hday
    simp only [List.mem_map] at hday
    obtain ⟨d0, hd0, hrw⟩ := hday
    have hd0nil : d0.sessions = [] := by
      simp only [initTimetable, List.mem_map] at hd0
      obtain ⟨i, _, hi⟩ := hd0
      rw [← hi]
    rw [← hrw]
    exact rebuildDay_nil _ _ _ _ hd0nil

end StudyMate

namespace StudyMate

theorem generateTimetable_degrades_witness :
    (∀ l : List SessionToken, (id l).Perm l)
    ∧ (([] : List Subject) = [] → generateTimetable id [] prefsDeg
        = [⟨0, "Monday", [], 0, 0⟩, ⟨1, "Tuesday", [], 0, 0⟩, ⟨2, "Wednesday", [], 0, 0⟩,
           ⟨3, "Thursday", [], 0, 0⟩, ⟨4, "Friday", [], 0, 0⟩, ⟨5, "Saturday", [], 0, 0⟩,
           ⟨6, "Sunday", [], 0, 0⟩])
    ∧ (prefsDeg.dailyHours * 60 / prefsDeg.sessionDuration = 0 →
        ∀ day ∈ generateTimetable id [] prefsDeg, day.sessions = []) :=
  ⟨fun l => List.Perm.refl l,
   (generateTimetable_degrades id [] prefsDeg (fun l => List.Perm.refl l)).1,
   (generateTimetable_degrades id [] prefsDeg (fun l => List.Perm.refl l)).2⟩

end StudyMate

namespace StudyMate

theorem insertDescBy_of_head_le (f : α → ℚ) (x y : α) (l : List α) (h : f y ≤ f x) :
    insertDescBy f x (y :: l) = x :: y :: l := by
  rw [insertDescBy, if_pos h]

theorem sortDescBy_replicate (f : α → ℚ) (x : α) (n : ℕ) :
    sortDescBy f (List.replicate n x) = List.replicate n x := by
  induction n with
  | zero => rfl
  | succ k ih =>
    rw [List.replicate_succ, sortDescBy, ih]
    cases k with
    | zero => rfl
    | succ j =>
      rw [List.replicate_succ, insertDescBy_of_head_le f x x _ (le_refl _)]

theorem sortDescBy_replicate_append (f : α → ℚ) (x y : α) (h : f y ≤ f x) (n : ℕ) :
    sortDescBy f (List.replicate n x ++ [y]) = List.replicate n x ++ [y] := by
  induction n with
  | zero => simp [sortDescBy, insertDescBy]
  | succ k ih =>
    rw [List.replicate_succ, List.cons_append, sortDescBy, ih]
    cases k with
    | zero => simp [insertDescBy_of_head_le f x y [] h]
    | succ j =>
      rw [List.replicate_succ, List.cons_append,
        insertDescBy_of_head_le f x x _ (le_refl _)]

theorem prio_BA : calculatePriority sB ≤ calculatePriority sA := by
  rw [calculatePriority, calculatePriority]
  simp only [sA, sB]
  rw [difficultyWeight_easy, difficultyWeight_hard]
  norm_num [min_def]

theorem hpoolC1 : sortDescBy (fun t => t.priority) (id (buildPool [mathS] prefsC1.sessionDuration))
    = List.replicate 3 tokMath := by
  have hsn : sessionsNeeded 1 25 = 3 := by
    rw [sessionsNeeded_eq 1 25 (by norm_num)]
  rw [id_eq, buildPool]
  simp only [List.map_cons, List.map_nil, sortDescBy, insertDescBy, List.flatMap_cons,
    List.flatMap_nil, List.append_nil]
  rw [show (mathS.weeklyHours) = 1 from rfl, show (prefsC1.sessionDuration) = 25 from rfl, hsn]
  rw [sortDescBy_replicate]
  rfl

end StudyMate

namespace StudyMate

theorem hpoolC4 : sortDescBy (fun t => t.priority) (id (buildPool [sA, sB] prefsC4.sessionDuration))
    = List.replicate 7 tokA ++ [tokB] := by
  have hsnA : sessionsNeeded 7 60 = 7 := by
    rw [sessionsNeeded_eq 7 60 (by norm_num)]
  have hsnB : sessionsNeeded 1 60 = 1 := by
    rw [sessionsNeeded_eq 1 60 (by norm_num)]
  rw [id_eq, buildPool]
  simp only [List.map_cons, List.map_nil, sortDescBy, insertDescBy]
  rw [if_pos prio_BA]
  simp only [List.flatMap_cons, List.flatMap_nil, List.append_nil]
  rw [show (sA.weeklyHours) = 7 from rfl, show (sB.weeklyHours) = 1 from rfl,
    show (prefsC4.sessionDuration) = 60 from rfl, hsnA, hsnB, List.replicate_one]
  show sortDescBy (fun t => t.priority) (List.replicate 7 tokA ++ [tokB])
    = List.replicate 7 tokA ++ [tokB]
  exact sortDescBy_replicate_append (fun t => t.priority) tokA tokB prio_BA 7

/-- C1: at the concrete input (one easy subject needing three sessions,
preferences 4h/25min/5min) day 0 of the generated timetable reports
`totalBreakMinutes = 5` although its final session list contains no
break at all — the totals are stale after the rebuild pass. -/
theorem generateTimetable_staleBreakTotals :
    ((generateTimetable id [mathS] prefsC1).getD 0 defaultDay).totalBreakMinutes = 5
    ∧ ((((generateTimetable id [mathS] prefsC1).getD 0 defaultDay).sessions.filter
        isBreak).map Session.duration).sum = 0 := by
  constructor
  · rw [generateTimetable, hpoolC1]
    decide
  · rw [generateTimetable, hpoolC1]
    decide

/-- C4: at the concrete input (easy subject A with the higher priority,
hard subject B), day 0's final sequence is A, Break, B — the hard
session last, although its difficulty weight is larger: the rebuild
sort reads the absent `difficulty` of placed sessions, so every key is
1 and the order stays placement order. -/
theorem generateTimetable_notDifficultySorted :
    (((generateTimetable id [sA, sB] prefsC4).getD 0 defaultDay).sessions.map Session.subject)
      = ["A", "Break", "B"]
    ∧ sA.difficulty = "easy" ∧ sB.difficulty = "hard"
    ∧ difficultyWeight sA.difficulty < difficultyWeight sB.difficulty := by
  refine ⟨?_, rfl, rfl, ?_⟩
  · rw [generateTimetable, hpoolC4]
    decide
  · rw [show (sA.difficulty) = "easy" from rfl, show (sB.difficulty) = "hard" from rfl,
      difficultyWeight_easy, difficultyWeight_hard]
    norm_num

end StudyMate
